import Mathlib

/-!
Verification of the Canxium cross-chain merge-mining verifier and reward
calculator (consensus/misc/cip0002.go, core/types/merge_kaspa_block.go).

The Go code is shallowly embedded: big.Int values become Lean Int, uint64
values become Nat (with explicit wrapping modulo 2^64 where the source
multiplies or adds uint64 quantities), byte slices become List Nat, and
fallible functions return Except or Option.  External library code (the
Kaspa heavy-hash proof of work, go-ethereum RLP) is not re-implemented:
its outcomes appear as explicit fields of the block model.
-/

namespace Canxium

/-- Chain tag of the Kaspa chain (crosschain.CrossChain is uint16; Kaspa = 1). -/
def KaspaChain : Nat := 1

/-- Chain tag reserved for Monero (= 2). -/
def MoneroChain : Nat := 2

/-- Largest uint64 value, math.MaxUint64. -/
def MaxUint64 : Nat := 2 ^ 64 - 1

/-- uint64 multiplication with wrap-around, as Go computes it. -/
def mul64 (a b : Nat) : Nat := (a * b) % 2 ^ 64

/-- uint64 addition with wrap-around, as Go computes it. -/
def add64 (a b : Nat) : Nat := (a + b) % 2 ^ 64

/-- mainPowMax = 2^255 - 1, the highest allowed Kaspa target. -/
def mainPowMax : Nat := 2 ^ 255 - 1

/-- maxPoWInLithiumFork = 2^256 / 512, the post-Lithium pow-hash admission bound. -/
def maxPoWInLithiumFork : Nat := 2 ^ 256 / 512

/-- allowedFutureBlockTimeMilliSeconds = 12000. -/
def allowedFutureBlockTimeMilliSeconds : Nat := 12000

/-- KaspaPhaseTwoDayNum = 3: number of initial incentive days. -/
def KaspaPhaseTwoDayNum : Nat := 3

/-- KaspaPhaseThreeMonth = 141: index of the plateau month. -/
def KaspaPhaseThreeMonth : Nat := 141

/-- The three-day incentive base-reward table. -/
def KaspaCrossMiningIncentiveBaseRewards : List Int := [600000, 400000, 200000]

/-- The pre-Lithium 142-entry per-month base-reward table. -/
def KaspaCrossMiningBaseRewards : List Int := [183829, 91915, 45958, 25868, 23963, 23254, 22566, 21898, 21249, 20620, 20010, 19418, 18843, 18285, 17744, 17219, 16709, 16214, 15734, 15269, 14817, 14378, 13953, 13540, 13139, 12750, 12372, 12006, 11651, 11306, 10971, 10647, 10331, 10026, 9729, 9441, 9161, 8890, 8627, 8372, 8124, 7883, 7650, 7424, 7204, 6991, 6784, 6583, 6388, 6199, 6016, 5838, 5665, 5497, 5334, 5176, 5023, 4875, 4730, 4590, 4454, 4323, 4195, 4070, 3950, 3833, 3720, 3610, 3503, 3399, 3298, 3201, 3106, 3014, 2925, 2838, 2754, 2673, 2594, 2517, 2442, 2370, 2300, 2232, 2166, 2102, 2040, 1979, 1921, 1864, 1809, 1755, 1703, 1653, 1604, 1556, 1510, 1466, 1422, 1380, 1339, 1300, 1261, 1224, 1188, 1153, 1119, 1085, 1053, 1022, 992, 963, 934, 906, 880, 854, 828, 804, 780, 757, 735, 713, 692, 671, 651, 632, 613, 595, 578, 561, 544, 528, 512, 497, 482, 468, 454, 441, 428, 415, 403, 400]

/-- The post-Lithium 142-entry per-month base-reward table. -/
def KaspaCrossMiningLithiumBaseRewards : List Int := [94120448, 47060480, 23530496, 13244416, 12269056, 11906048, 11553792, 11211776, 10879488, 10557440, 10245120, 9942016, 9647616, 9361920, 9084928, 8816128, 8555008, 8301568, 8055808, 7817728, 7586304, 7361536, 7143936, 6932480, 6727168, 6528000, 6334464, 6147072, 5965312, 5788672, 5617152, 5451264, 5289472, 5133312, 4981248, 4833792, 4690432, 4551680, 4417024, 4286464, 4159488, 4036096, 3916800, 3801088, 3688448, 3579392, 3473408, 3370496, 3270656, 3173888, 3080192, 2989056, 2900480, 2814464, 2731008, 2650112, 2571776, 2496000, 2421760, 2350080, 2280448, 2213376, 2147840, 2083840, 2022400, 1962496, 1904640, 1848320, 1793536, 1740288, 1688576, 1638912, 1590272, 1543168, 1497600, 1453056, 1410048, 1368576, 1328128, 1288704, 1250304, 1213440, 1177600, 1142784, 1108992, 1076224, 1044480, 1013248, 983552, 954368, 926208, 898560, 871936, 846336, 821248, 796672, 773120, 750592, 728064, 706560, 685568, 665600, 645632, 626688, 608256, 590336, 572928, 555520, 539136, 523264, 507904, 493056, 478208, 463872, 450560, 437248, 423936, 411648, 399360, 387584, 376320, 365056, 354304, 343552, 333312, 323584, 313856, 304640, 295936, 287232, 278528, 270336, 262144, 254464, 246784, 239616, 232448, 225792, 219136, 212480, 206336, 204800]

/-- timePassedSinceFork: whole days and whole 30-day months elapsed between
forkTime and time, both zero when time < forkTime. -/
def timePassedSinceFork (forkTime time : Nat) : Nat × Nat :=
  if time < forkTime then (0, 0)
  else ((time - forkTime) / 86400, (time - forkTime) / 2592000)

/-- kaspaCrossMiningReward: pick the base reward from the incentive table for
the first three days, then from the month table of the active fork era,
plateauing at entry 141; the reward is difficulty * base / 1000000 with
big.Int (Euclidean) division. -/
def kaspaCrossMiningReward (isLithiumFork : Bool) (difficulty : Int)
    (forkTime time : Nat) : Int :=
  let dm := timePassedSinceFork forkTime time
  let day := dm.1
  let month := dm.2
  let baseRewards :=
    if isLithiumFork then KaspaCrossMiningLithiumBaseRewards
    else KaspaCrossMiningBaseRewards
  let baseReward : Int :=
    if day < KaspaPhaseTwoDayNum then
      KaspaCrossMiningIncentiveBaseRewards.getD day 0
    else if month < KaspaPhaseThreeMonth then
      baseRewards.getD month 0
    else
      baseRewards.getD KaspaPhaseThreeMonth 0
  Int.ediv (difficulty * baseReward) 1000000

/-- The ASCII bytes of the miner tag literal "canxiuminer:" (minerTagPrefix). -/
def minerTag : List Nat := [99, 97, 110, 120, 105, 117, 109, 105, 110, 101, 114, 58]

/-- Value of one ASCII character as a hex digit, none when the character is
not a hex digit (mirrors encoding/hex digit decoding, upper and lower case). -/
def hexDigitVal (c : Nat) : Option Nat :=
  if 48 ≤ c ∧ c ≤ 57 then some (c - 48)
  else if 97 ≤ c ∧ c ≤ 102 then some (c - 87)
  else if 65 ≤ c ∧ c ≤ 70 then some (c - 55)
  else none

/-- Modelled from the spec: go-ethereum common.Hex2Bytes / hex.DecodeString on
a byte string (external library code, not under the provided sources).
Pairs of hex digits are decoded left to right; the bytes decoded before the
first invalid pair are returned, the decode error itself being discarded. -/
def hex2Bytes : List Nat → List Nat
  | c1 :: c2 :: rest =>
    match hexDigitVal c1, hexDigitVal c2 with
    | some h, some l => (h * 16 + l) :: hex2Bytes rest
    | _, _ => []
  | _ => []

/-- Modelled from the spec: go-ethereum common.BytesToAddress (external
library code): keep the last 20 bytes and left-pad with zeros to 20 bytes. -/
def bytesToAddress (bs : List Nat) : List Nat :=
  let b := if 20 < bs.length then bs.drop (bs.length - 20) else bs
  List.replicate (20 - b.length) 0 ++ b

/-- Modelled from the spec: go-ethereum common.HexToAddress (external library
code): a total function from a hex string (without 0x) to a 20-byte address;
malformed hex degrades to the successfully decoded leading bytes. -/
def hexToAddress (s : List Nat) : List Nat := bytesToAddress (hex2Bytes s)

/-- GetMinerAddress on a Kaspa block: the coinbase payload must be at least
len("canxiuminer:") + 40 = 52 bytes long and its last 52 bytes must start
with the literal tag; the following 40 characters are handed to the total
common.HexToAddress without any hex validation. -/
def getMinerAddress (payload : List Nat) : Except String (List Nat) :=
  let tagLength := minerTag.length + 40
  if payload.length < tagLength then
    Except.error "invalid kaspa coinbase transaction payload length"
  else
    let tag := payload.drop (payload.length - tagLength)
    if minerTag.isPrefixOf tag then
      Except.ok (hexToAddress (tag.drop minerTag.length))
    else
      Except.error "invalid kaspa coinbase transaction payload tag"

/-- externalapi.DomainHashSize = 32. -/
def DomainHashSize : Nat := 32

/-- decodeMerkleProof, after the external RLP layer has produced the nested
byte lists: each element is copied into a fresh zeroed 32-byte array with
copy(hashArray, data), so longer elements are truncated to their first 32
bytes and shorter ones are zero-padded on the right; no size check is made
and this stage cannot fail. -/
def decodeMerkleProof (decoded : List (List Nat)) : List (List Nat) :=
  decoded.map (fun data => data.take 32 ++ List.replicate (32 - data.length) 0)

/-- One level of decodeBlockLevelParentsList: an empty element decodes to a
nil parent, a 32-byte element to a hash, and any other size is an error. -/
def decodeLevelParents : List (List Nat) → Except String (List (Option (List Nat)))
  | [] => Except.ok []
  | d :: rest =>
    if d.length = 0 then
      match decodeLevelParents rest with
      | Except.ok r => Except.ok (none :: r)
      | Except.error e => Except.error e
    else if d.length ≠ DomainHashSize then
      Except.error "invalid DomainHash size"
    else
      match decodeLevelParents rest with
      | Except.ok r => Except.ok (some d :: r)
      | Except.error e => Except.error e

/-- decodeBlockLevelParentsList, after the external RLP layer has produced
the nested byte lists: every inner element must be empty or exactly 32
bytes. -/
def decodeBlockLevelParentsList :
    List (List (List Nat)) → Except String (List (List (Option (List Nat))))
  | [] => Except.ok []
  | level :: rest =>
    match decodeLevelParents level with
    | Except.error e => Except.error e
    | Except.ok l =>
      match decodeBlockLevelParentsList rest with
      | Except.error e => Except.error e
      | Except.ok r => Except.ok (l :: r)

/-- The consumed subset of params.ChainConfig: Helium and Lithium fork
activation times, the mining contract address (20 bytes) and the minimum
Kaspa difficulty (config.CrossMining.MinimumKaspaDifficulty). HeliumTime is
dereferenced unconditionally by the verifier, so it is a plain value;
LithiumTime may be unset. -/
structure ChainConfig where
  heliumTime : Nat
  lithiumTime : Option Nat
  miningContract : List Nat
  minimumKaspaDifficulty : Int

/-- Modelled from the spec: config.IsHelium — the fork activation predicate
of params.ChainConfig (outside the provided sources): active exactly when
the fork time is less than or equal to the evaluated block time. -/
def ChainConfig.isHelium (cfg : ChainConfig) (time : Nat) : Bool :=
  cfg.heliumTime ≤ time

/-- Modelled from the spec: config.IsLithium — the fork activation predicate
of params.ChainConfig (outside the provided sources): active exactly when
the fork time is set and less than or equal to the evaluated block time. -/
def ChainConfig.isLithium (cfg : ChainConfig) (time : Nat) : Bool :=
  match cfg.lithiumTime with
  | none => false
  | some lt => lt ≤ time

/-- The observable behaviour of a crosschain.CrossChainBlock, as consumed by
the verifier: the chain tag, the structural-validity bit computed by
IsValidBlock, the PoW hash interpreted as a 256-bit integer (BlockHash
returns its canonical 64-character hex string, whose decode cannot fail),
the compact-bits-derived difficulty, the millisecond timestamp, the
outcomes of the external heavy-hash VerifyPoW and of VerifyCoinbase, and
the coinbase payload from which GetMinerAddress extracts the miner. -/
structure CrossBlock where
  chain : Nat
  isValidBlock : Bool
  blockHashInt : Nat
  difficulty : Int
  timestamp : Nat
  powValid : Bool
  coinbaseValid : Bool
  coinbasePayload : List Nat

/-- The fields of a cross-mining transaction consumed by the verifier.
tx.Difficulty() delegates to AuxPoW().Difficulty(), so no separate
difficulty field exists here. -/
structure CrossTx where
  txType : Nat
  toAddr : Option (List Nat)
  value : Int
  data : List Nat
  fromAddr : List Nat
  auxPoW : Option CrossBlock

/-- The typed errors surfaced by VerifyCrossMiningTxSeal, in source order.
GetMinerAddress failures are propagated unchanged, so they carry their
message. -/
inductive SealError where
  | invalidNilBlock
  | invalidCrossChainBlock
  | invalidMiningTimeLine
  | invalidBlockPoWHash
  | invalidMiningReceiver
  | invalidDifficulty
  | difficultyUnderValue
  | invalidMiningBlockTime
  | invalidFutureBlock
  | invalidMiningTxValue
  | invalidMergePoW
  | invalidMergeCoinbase
  | minerAddressError (msg : String)
  | invalidMiningInput
  deriving DecidableEq, Repr

/-- isValidKaspaBlockHash: the PoW hash integer must be strictly below
2^256 / 512 (the hex decode of the canonical hash string cannot fail). -/
def isValidKaspaBlockHash (hashInt : Nat) : Bool :=
  hashInt < maxPoWInLithiumFork

/-- CrossMiningForkTime: the Helium fork time for Kaspa, MaxUint64 for any
other chain. -/
def CrossMiningForkTime (cfg : ChainConfig) (parentChain : Nat) : Nat :=
  if parentChain = KaspaChain then cfg.heliumTime else MaxUint64

/-- CrossMiningForkTimeMilli: the fork time in milliseconds (uint64
multiplication), MaxUint64 when the fork time is MaxUint64. -/
def CrossMiningForkTimeMilli (cfg : ChainConfig) (parentChain : Nat) : Nat :=
  let forkTime := CrossMiningForkTime cfg parentChain
  if forkTime ≠ MaxUint64 then mul64 forkTime 1000 else MaxUint64

/-- CrossMiningMinDifficulty: the configured Kaspa minimum for Kaspa,
mainPowMax for any other chain. -/
def CrossMiningMinDifficulty (cfg : ChainConfig) (parentChain : Nat) : Int :=
  if parentChain = KaspaChain then cfg.minimumKaspaDifficulty
  else (mainPowMax : Int)

/-- isSupportedCrossMining: only the Kaspa chain is supported, and only once
the Helium fork is active at the parent block time. -/
def isSupportedCrossMining (cfg : ChainConfig) (b : CrossBlock)
    (blockTime : Nat) : Bool :=
  b.chain = KaspaChain && cfg.isHelium blockTime

/-- CrossMiningReward: zero before the fork time, the Kaspa schedule for a
Kaspa block, zero for any other chain. -/
def CrossMiningReward (isLithiumFork : Bool) (b : CrossBlock)
    (forkTime time : Nat) : Int :=
  if time < forkTime then 0
  else if b.chain = KaspaChain then
    kaspaCrossMiningReward isLithiumFork b.difficulty forkTime time
  else 0

/-- The 4-byte crossMining(address,uint16,uint256) selector 0x97b8f2fc. -/
def CanxiumCrossMiningTxDataMethod : List Nat := [0x97, 0xb8, 0xf2, 0xfc]

/-- common.LeftPadBytes: left-pad with zeros to length l, returning the
slice unchanged when it is already at least that long. -/
def leftPadBytes (slice : List Nat) (l : Nat) : List Nat :=
  if l ≤ slice.length then slice
  else List.replicate (l - slice.length) 0 ++ slice

/-- k-byte big-endian encoding of n modulo 256^k (big.Int.FillBytes shape). -/
def beBytes : Nat → Nat → List Nat
  | 0, _ => []
  | k + 1, n => beBytes k (n / 256) ++ [n % 256]

/-- buildCrossMiningTxInput: the selector, the 20-byte miner address
left-padded to 32 bytes, the chain tag printed as a 4-hex-digit string,
zero-padded to 64 hex characters and decoded to 32 bytes (30 zero bytes
followed by the big-endian uint16), and the millisecond timestamp filled
big-endian into 32 bytes. -/
def buildCrossMiningTxInput (chain : Nat) (address : List Nat)
    (timestamp : Nat) : List Nat :=
  let paddedAddress := leftPadBytes address 32
  let timestampPadded := beBytes 32 timestamp
  let chainPadded := List.replicate 30 0 ++ beBytes 2 chain
  CanxiumCrossMiningTxDataMethod ++ paddedAddress ++ chainPadded ++ timestampPadded

/-- VerifyCrossMiningTxSeal: the full check sequence of the verifier, with
none standing for a nil error (acceptance). blockTime is the parent
header's Time field. -/
def VerifyCrossMiningTxSeal (cfg : ChainConfig) (tx : CrossTx)
    (blockTime : Nat) : Option SealError :=
  match tx.auxPoW with
  | none => some SealError.invalidNilBlock
  | some b =>
    if !b.isValidBlock then some SealError.invalidCrossChainBlock
    else if !isSupportedCrossMining cfg b blockTime then
      some SealError.invalidMiningTimeLine
    else if cfg.isLithium blockTime && b.chain = KaspaChain
        && !isValidKaspaBlockHash b.blockHashInt then
      some SealError.invalidBlockPoWHash
    else if tx.toAddr ≠ some cfg.miningContract then
      some SealError.invalidMiningReceiver
    else if b.difficulty ≤ 0 then some SealError.invalidDifficulty
    else if b.difficulty < CrossMiningMinDifficulty cfg b.chain then
      some SealError.difficultyUnderValue
    else if b.timestamp < CrossMiningForkTimeMilli cfg b.chain then
      some SealError.invalidMiningBlockTime
    else if add64 (mul64 blockTime 1000) allowedFutureBlockTimeMilliSeconds
        < b.timestamp then
      some SealError.invalidFutureBlock
    else if tx.value ≠ CrossMiningReward (cfg.isLithium blockTime) b
        (CrossMiningForkTime cfg b.chain) blockTime then
      some SealError.invalidMiningTxValue
    else if !b.powValid then some SealError.invalidMergePoW
    else if !b.coinbaseValid then some SealError.invalidMergeCoinbase
    else
      match getMinerAddress b.coinbasePayload with
      | Except.error e => some (SealError.minerAddressError e)
      | Except.ok miner =>
        if tx.data ≠ buildCrossMiningTxInput b.chain miner b.timestamp then
          some SealError.invalidMiningInput
        else none

/-- Modelled from the spec: the dedicated cross-mining transaction type byte
types.CrossMiningTxType (declared outside the provided sources; only
equality with a transaction's type byte is ever used, so its concrete
value is irrelevant to every property below). -/
def CrossMiningTxType : Nat := 0x66

/-- IsUnauthorizedCrossMiningTx: a transaction addressed to the mining
contract whose data starts with the crossChainMining selector is only
allowed when it carries the cross-mining transaction type. -/
def IsUnauthorizedCrossMiningTx (cfg : ChainConfig) (tx : CrossTx) : Bool :=
  match tx.toAddr with
  | some a =>
    if a = cfg.miningContract then
      if 4 ≤ tx.data.length
          && CanxiumCrossMiningTxDataMethod = tx.data.take 4 then
        if tx.txType ≠ CrossMiningTxType then true else false
      else false
    else false
  | none => false

/-- The check sequence of VerifyCrossMiningTxSeal as an explicit ordered list
of (fail-condition, typed error) pairs, in the spec's listed order: a check
fails exactly when its flag holds. -/
def sealCheckList (cfg : ChainConfig) (tx : CrossTx) (blockTime : Nat) :
    List (Bool × SealError) :=
  match tx.auxPoW with
  | none => [(true, SealError.invalidNilBlock)]
  | some b =>
    let pre : List (Bool × SealError) :=
      [(!b.isValidBlock, SealError.invalidCrossChainBlock),
       (!isSupportedCrossMining cfg b blockTime, SealError.invalidMiningTimeLine),
       (cfg.isLithium blockTime && decide (b.chain = KaspaChain)
          && !isValidKaspaBlockHash b.blockHashInt, SealError.invalidBlockPoWHash),
       (decide (tx.toAddr ≠ some cfg.miningContract), SealError.invalidMiningReceiver),
       (decide (b.difficulty ≤ 0), SealError.invalidDifficulty),
       (decide (b.difficulty < CrossMiningMinDifficulty cfg b.chain),
          SealError.difficultyUnderValue),
       (decide (b.timestamp < CrossMiningForkTimeMilli cfg b.chain),
          SealError.invalidMiningBlockTime),
       (decide (add64 (mul64 blockTime 1000) allowedFutureBlockTimeMilliSeconds
          < b.timestamp), SealError.invalidFutureBlock),
       (decide (tx.value ≠ CrossMiningReward (cfg.isLithium blockTime) b
          (CrossMiningForkTime cfg b.chain) blockTime), SealError.invalidMiningTxValue),
       (!b.powValid, SealError.invalidMergePoW),
       (!b.coinbaseValid, SealError.invalidMergeCoinbase)]
    match getMinerAddress b.coinbasePayload with
    | Except.error e => pre ++ [(true, SealError.minerAddressError e)]
    | Except.ok miner =>
      pre ++ [(decide (tx.data ≠ buildCrossMiningTxInput b.chain miner b.timestamp),
               SealError.invalidMiningInput)]

/-- The error of the first check whose fail-flag holds, none when every
check passes. -/
def firstFailure : List (Bool × SealError) → Option SealError
  | [] => none
  | (failed, e) :: rest => if failed then some e else firstFailure rest

/-- The spec-shaped calldata: selector, then three 32-byte left-zero-padded
big-endian fields (miner address, chain tag as uint16, millisecond
timestamp as uint256). -/
def pad32 (bs : List Nat) : List Nat :=
  List.replicate (32 - bs.length) 0 ++ bs

/-- Modelled from the spec words, for comparison with the source-shaped
buildCrossMiningTxInput: selector followed by pad32 of the address, pad32
of the big-endian uint16 chain tag, and the big-endian uint256 timestamp. -/
def crossMiningCalldataSpec (chain : Nat) (miner : List Nat) (tsMs : Nat) :
    List Nat :=
  [0x97, 0xb8, 0xf2, 0xfc] ++ pad32 miner ++ pad32 (beBytes 2 chain)
    ++ beBytes 32 tsMs

/-- A sample 20-byte mining-contract address. -/
def sampleContract : List Nat := List.replicate 20 17

/-- A sample chain configuration: Helium active since 1704067200, Lithium
unset, minimum Kaspa difficulty 1000000. -/
def sampleCfg : ChainConfig :=
  { heliumTime := 1704067200, lithiumTime := none,
    miningContract := sampleContract, minimumKaspaDifficulty := 1000000 }

/-- A sample coinbase payload: the miner tag followed by forty ASCII 'a'. -/
def samplePayload : List Nat := minerTag ++ List.replicate 40 97

/-- The miner address encoded by samplePayload: twenty 0xaa bytes. -/
def sampleMiner : List Nat := List.replicate 20 170

/-- A sample Kaspa block passing every structural check. -/
def sampleBlock : CrossBlock :=
  { chain := KaspaChain, isValidBlock := true, blockHashInt := 0,
    difficulty := 1000000, timestamp := 1704067300000, powValid := true,
    coinbaseValid := true, coinbasePayload := samplePayload }

/-- A sample accepted cross-mining transaction for parent time 1704067300. -/
def sampleTx : CrossTx :=
  { txType := CrossMiningTxType, toAddr := some sampleContract,
    value := 600000,
    data := buildCrossMiningTxInput KaspaChain sampleMiner 1704067300000,
    fromAddr := List.replicate 20 1, auxPoW := some sampleBlock }

/-- A sample Kaspa block whose timestamp is one millisecond before the fork. -/
def sampleBlockEarly : CrossBlock :=
  { sampleBlock with timestamp := 1704067199999 }

/-- A transaction carrying sampleBlockEarly. -/
def sampleTxEarly : CrossTx :=
  { sampleTx with auxPoW := some sampleBlockEarly }

/-- The sample configuration with the Lithium fork active from the Helium
fork time on. -/
def sampleCfgLithium : ChainConfig :=
  { sampleCfg with lithiumTime := some 1704067200 }

/-- A sample Kaspa block whose PoW hash integer is far above 2^256 / 512. -/
def sampleBlockBigHash : CrossBlock :=
  { sampleBlock with blockHashInt := 2 ^ 255 }

/-- A transaction carrying sampleBlockBigHash. -/
def sampleTxBigHash : CrossTx :=
  { sampleTx with auxPoW := some sampleBlockBigHash }

/-- C7: `timePassedSinceFork` returns (0, 0) before the fork and the
integer-division day and month counts after it; but at fork + 31536000 it
returns (365, 12), not the claimed (366, 12): 31536000 / 86400 = 365. -/
theorem c7_counterexample :
    timePassedSinceFork 1704067200 (1704067200 + 31536000) = (365, 12) ∧
      ((365, 12) : Nat × Nat) ≠ (366, 12) := by
  constructor
  · decide
  · decide

/-- C7 (amended): timePassedSinceFork(fork, t) is (0, 0) when t < fork and
otherwise ((t - fork) / 86400, (t - fork) / 2592000) under integer
division; in particular timePassedSinceFork(fork, fork + 31536000) =
(365, 12). -/
theorem c7_time_passed_since_fork (forkTime time : Nat) :
    timePassedSinceFork forkTime time =
      (if time < forkTime then 0 else (time - forkTime) / 86400,
       if time < forkTime then 0 else (time - forkTime) / 2592000)
    ∧ timePassedSinceFork forkTime (forkTime + 31536000) = (365, 12) := by
  constructor
  · unfold timePassedSinceFork
    split <;> simp
  · unfold timePassedSinceFork
    have h : ¬ forkTime + 31536000 < forkTime := by omega
    rw [if_neg h]
    have h2 : forkTime + 31536000 - forkTime = 31536000 := by omega
    rw [h2]

/-- C8: at the failing input of the claim (Lithium active, difficulty 10^18,
fork 1704067200, parent time 1704326400, i.e. day 3 / month 0) the code
computes 10^18 * 94120448 / 10^6 = 94120448 * 10^12 wei from the first
entry of the Lithium month table, not the 183829 * 10^15 wei that the
repository's own TestKaspaCrossMiningReward expects. -/
theorem c8_lithium_day3_reward_evaluation :
    kaspaCrossMiningReward true 1000000000000000000 1704067200 1704326400
        = 94120448000000000000
    ∧ kaspaCrossMiningReward true 1000000000000000000 1704067200 1704326400
        ≠ 183829000000000000000 := by
  constructor
  · decide
  · decide

/-- C6: the unauthorized-call predicate holds exactly for transactions sent
to the mining contract whose data is at least 4 bytes long, starts with the
0x97b8f2fc selector, and whose type byte is not the cross-mining type. -/
theorem c6_unauthorized_call_guard (cfg : ChainConfig) (tx : CrossTx) :
    IsUnauthorizedCrossMiningTx cfg tx = true ↔
      (tx.toAddr = some cfg.miningContract ∧ 4 ≤ tx.data.length ∧
       tx.data.take 4 = [0x97, 0xb8, 0xf2, 0xfc] ∧
       tx.txType ≠ CrossMiningTxType) := by
  unfold IsUnauthorizedCrossMiningTx
  cases h : tx.toAddr with
  | none => simp [h]
  | some a =>
    simp only [h, Option.some.injEq]
    split_ifs with h1 h2 h3 <;>
      simp_all [CanxiumCrossMiningTxDataMethod] <;>
      intro hsl <;> simp_all [eq_comm]

/-- C1: on a Kaspa block the cross-mining reward is 0 before the fork, and
from the fork on it is difficulty * base / 1000000 (big.Int division) with
the base taken from the incentive table for days 0-2, from the 142-entry
table of the active era for months below 141, and from that table's last
entry (index 141) from month 141 on. -/
theorem c1_kaspa_reward_schedule (isLith : Bool) (b : CrossBlock)
    (forkTime t : Nat) (hchain : b.chain = KaspaChain) :
    (forkTime ≤ t →
      CrossMiningReward isLith b forkTime t =
        Int.ediv (b.difficulty *
          (if (t - forkTime) / 86400 < 3 then
            KaspaCrossMiningIncentiveBaseRewards.getD ((t - forkTime) / 86400) 0
          else if (t - forkTime) / 2592000 < 141 then
            (if isLith then KaspaCrossMiningLithiumBaseRewards
             else KaspaCrossMiningBaseRewards).getD ((t - forkTime) / 2592000) 0
          else
            (if isLith then KaspaCrossMiningLithiumBaseRewards
             else KaspaCrossMiningBaseRewards).getD 141 0)) 1000000)
    ∧ (t < forkTime → CrossMiningReward isLith b forkTime t = 0)
    ∧ KaspaCrossMiningBaseRewards.length = 142
    ∧ KaspaCrossMiningLithiumBaseRewards.length = 142
    ∧ KaspaCrossMiningIncentiveBaseRewards.length = 3
    ∧ KaspaCrossMiningBaseRewards.getLast? =
        some (KaspaCrossMiningBaseRewards.getD 141 0)
    ∧ KaspaCrossMiningLithiumBaseRewards.getLast? =
        some (KaspaCrossMiningLithiumBaseRewards.getD 141 0) := by
  refine ⟨?_, ?_, rfl, rfl, rfl, by decide, by decide⟩
  · intro hle
    have hnlt : ¬ t < forkTime := not_lt.mpr hle
    unfold CrossMiningReward kaspaCrossMiningReward timePassedSinceFork
    unfold KaspaPhaseTwoDayNum KaspaPhaseThreeMonth
    rw [if_neg hnlt, if_pos hchain, if_neg hnlt]
  · intro hlt
    unfold CrossMiningReward
    rw [if_pos hlt]

/-- C1 witness: at fork 1704067200, time 1713574900 (day 110, month 3),
pre-Lithium, difficulty 10^18, the sample Kaspa block earns
25868 * 10^12 wei, as the schedule theorem dictates. -/
theorem c1_kaspa_reward_schedule_witness :
    sampleBlock.chain = KaspaChain ∧ (1704067200 : Nat) ≤ 1713574900 ∧
      CrossMiningReward false sampleBlock 1704067200 1713574900 =
        Int.ediv (sampleBlock.difficulty *
          KaspaCrossMiningBaseRewards.getD 3 0) 1000000 := by
  refine ⟨rfl, by decide, ?_⟩
  have h := (c1_kaspa_reward_schedule false sampleBlock 1704067200 1713574900
    rfl).1 (by decide)
  rw [h]
  norm_num

/-- C9 counterexample: a one-byte Merkle-branch element does not fail
decoding; it is silently zero-padded into a 32-byte hash. -/
theorem c9_counterexample :
    decodeMerkleProof [[1]] = [1 :: List.replicate 31 0] := by decide

/-- A level of the parents list decodes successfully exactly when every
element is empty or exactly 32 bytes long. -/
theorem decodeLevelParents_isOk (level : List (List Nat)) :
    (decodeLevelParents level).isOk = true ↔
      ∀ e ∈ level, e.length = 0 ∨ e.length = 32 := by
  induction level with
  | nil => simp [decodeLevelParents, Except.isOk, Except.toBool]
  | cons e es ih =>
    unfold decodeLevelParents
    by_cases h0 : e.length = 0
    · rw [if_pos h0]
      cases hrec : decodeLevelParents es with
      | ok r => simp_all [Except.isOk, Except.toBool]
      | error er => simp_all [Except.isOk, Except.toBool]
    · rw [if_neg h0]
      by_cases h32 : e.length = DomainHashSize
      · rw [if_neg (by simpa using h32)]
        cases hrec : decodeLevelParents es with
        | ok r => simp_all [Except.isOk, Except.toBool, DomainHashSize]
        | error er => simp_all [Except.isOk, Except.toBool, DomainHashSize]
      · rw [if_pos (by simpa using h32)]
        simp_all [Except.isOk, Except.toBool, DomainHashSize]

/-- C9 (amended): the parents-list decoder fails exactly when some inner
element's size is neither 0 nor 32 bytes; the Merkle-branch decoder never
fails: it keeps the element count and forces every element to exactly 32
bytes by truncating longer elements and zero-padding shorter ones. -/
theorem c9_decoder_size_checks (d : List (List (List Nat)))
    (l : List (List Nat)) :
    ((decodeBlockLevelParentsList d).isOk = true ↔
      ∀ level ∈ d, ∀ e ∈ level, e.length = 0 ∨ e.length = 32)
    ∧ (decodeMerkleProof l).length = l.length
    ∧ (∀ h ∈ decodeMerkleProof l, h.length = 32) := by
  refine ⟨?_, ?_, ?_⟩
  · induction d with
    | nil => simp [decodeBlockLevelParentsList, Except.isOk, Except.toBool]
    | cons level rest ih =>
      unfold decodeBlockLevelParentsList
      have hlevel := decodeLevelParents_isOk level
      cases hl : decodeLevelParents level with
      | error e =>
        rw [hl] at hlevel
        simp only [Except.isOk, Except.toBool, Bool.false_eq_true,
          false_iff] at hlevel
        simp only [Except.isOk, Except.toBool, Bool.false_eq_true, false_iff,
          List.forall_mem_cons, not_and]
        intro hlv _
        exact hlevel hlv
      | ok r =>
        rw [hl] at hlevel
        simp only [Except.isOk, Except.toBool, true_iff] at hlevel
        cases hrest : decodeBlockLevelParentsList rest with
        | error e =>
          rw [hrest] at ih
          simp only [Except.isOk, Except.toBool, Bool.false_eq_true,
            false_iff] at ih
          simp only [Except.isOk, Except.toBool, Bool.false_eq_true, false_iff,
            List.forall_mem_cons, not_and]
          intro _ hr
          exact ih hr
        | ok rs =>
          rw [hrest] at ih
          simp only [Except.isOk, Except.toBool, true_iff] at ih
          simp only [Except.isOk, Except.toBool, true_iff,
            List.forall_mem_cons]
          exact ⟨hlevel, ih⟩
  · simp [decodeMerkleProof]
  · intro h hmem
    simp only [decodeMerkleProof, List.mem_map] at hmem
    obtain ⟨data, _, rfl⟩ := hmem
    simp only [List.length_append, List.length_take, List.length_replicate]
    omega

/-- C10: GetMinerAddress succeeds exactly when the payload is at least 52
bytes long and its last 52 bytes start with the "canxiuminer:" tag; the 40
characters after the tag are never hex-validated, as witnessed by a payload
of forty uppercase non-hex characters ('Z') still succeeding. -/
theorem c10_get_miner_address_no_hex_validation (payload : List Nat) :
    ((getMinerAddress payload).isOk = true ↔
      (52 ≤ payload.length ∧
        minerTag.isPrefixOf (payload.drop (payload.length - 52)) = true))
    ∧ (getMinerAddress (minerTag ++ List.replicate 40 90)).isOk = true := by
  constructor
  · unfold getMinerAddress
    have htag : minerTag.length + 40 = 52 := by decide
    rw [htag]
    by_cases hlen : payload.length < 52
    · rw [if_pos hlen]
      simp only [Except.isOk, Except.toBool, Bool.false_eq_true, false_iff,
        not_and]
      intro hge
      omega
    · rw [if_neg hlen]
      by_cases hpre : minerTag.isPrefixOf (payload.drop (payload.length - 52))
        = true
      · rw [if_pos hpre]
        simp only [Except.isOk, Except.toBool, true_iff]
        exact ⟨by omega, hpre⟩
      · rw [if_neg (by simpa using hpre)]
        simp only [Except.isOk, Except.toBool, Bool.false_eq_true, false_iff,
          not_and]
        intro _
        exact fun h => hpre h
  · decide

/-- The verifier agrees with the first-failure fold over its check list. -/
theorem seal_firstFailure (cfg : ChainConfig) (tx : CrossTx) (t : Nat) :
    VerifyCrossMiningTxSeal cfg tx t = firstFailure (sealCheckList cfg tx t) := by
  unfold VerifyCrossMiningTxSeal sealCheckList
  cases tx.auxPoW with
  | none => rfl
  | some b =>
    cases hm : getMinerAddress b.coinbasePayload with
    | error e =>
      simp only [hm]
      simp [firstFailure]
    | ok miner =>
      simp only [hm]
      simp [firstFailure]

/-- A first failure always comes from the list of listed errors. -/
theorem firstFailure_mem (l : List (Bool × SealError)) (e : SealError)
    (h : firstFailure l = some e) : e ∈ l.map Prod.snd := by
  induction l with
  | nil => simp [firstFailure] at h
  | cons p rest ih =>
    obtain ⟨failed, err⟩ := p
    unfold firstFailure at h
    by_cases hf : failed = true
    · rw [if_pos hf] at h
      simp at h
      simp [h]
    · rw [if_neg hf] at h
      simp [ih h]

/-- An error that is not in the listed errors is never the first failure. -/
theorem firstFailure_ne_of_not_mem (l : List (Bool × SealError)) (e : SealError)
    (h : e ∉ l.map Prod.snd) : firstFailure l ≠ some e :=
  fun hc => h (firstFailure_mem l e hc)

/-- C2: the verifier equals the first-failure fold over the ordered check
list (nil block, structural validity, chain support, Lithium pow-hash
bound, receiver, positive difficulty, minimum difficulty, block-time lower
bound, future-block upper bound, value = reward, PoW, coinbase, miner
extraction, calldata), returning none exactly when every check passes. -/
theorem c2_check_order (cfg : ChainConfig) (tx : CrossTx) (t : Nat) :
    VerifyCrossMiningTxSeal cfg tx t = firstFailure (sealCheckList cfg tx t) :=
  seal_firstFailure cfg tx t

/-- C3: with all checks before the timestamp window passing and realistic
(non-overflowing) times, the verifier rejects with the block-time error
exactly when the foreign millisecond timestamp is below fork_time * 1000,
rejects with the future-block error exactly when the timestamp is at least
fork_time * 1000 but exceeds parent_time * 1000 + 12000, passes both
timestamp checks at exactly parent_time * 1000 + 12000, and rejects
parent_time * 1000 + 12001 as a future block. -/
theorem c3_timestamp_window (cfg : ChainConfig) (tx : CrossTx) (t : Nat)
    (b : CrossBlock)
    (hb : tx.auxPoW = some b)
    (hvalid : b.isValidBlock = true)
    (hsup : isSupportedCrossMining cfg b t = true)
    (hlith : cfg.isLithium t = true → isValidKaspaBlockHash b.blockHashInt = true)
    (hto : tx.toAddr = some cfg.miningContract)
    (hdiff : 0 < b.difficulty)
    (hmin : CrossMiningMinDifficulty cfg b.chain ≤ b.difficulty)
    (hfork : cfg.heliumTime < 2 ^ 50)
    (ht : t < 2 ^ 50) :
    (VerifyCrossMiningTxSeal cfg tx t = some SealError.invalidMiningBlockTime ↔
      b.timestamp < cfg.heliumTime * 1000)
    ∧ (VerifyCrossMiningTxSeal cfg tx t = some SealError.invalidFutureBlock ↔
      (cfg.heliumTime * 1000 ≤ b.timestamp ∧ t * 1000 + 12000 < b.timestamp))
    ∧ (b.timestamp = t * 1000 + 12000 →
        VerifyCrossMiningTxSeal cfg tx t ≠ some SealError.invalidMiningBlockTime ∧
        VerifyCrossMiningTxSeal cfg tx t ≠ some SealError.invalidFutureBlock)
    ∧ (b.timestamp = t * 1000 + 12001 →
        VerifyCrossMiningTxSeal cfg tx t = some SealError.invalidFutureBlock) := by
  have hsup' := hsup
  unfold isSupportedCrossMining at hsup'
  simp only [Bool.and_eq_true, decide_eq_true_eq] at hsup'
  have hchain : b.chain = KaspaChain := hsup'.1
  have hhel : cfg.heliumTime ≤ t := by
    have h := hsup'.2
    unfold ChainConfig.isHelium at h
    exact of_decide_eq_true h
  have h3flag : (cfg.isLithium t && decide (b.chain = KaspaChain)
      && !isValidKaspaBlockHash b.blockHashInt) = false := by
    cases hl : cfg.isLithium t with
    | false => rfl
    | true => simp [hchain, hlith hl]
  have h4 : ¬ tx.toAddr ≠ some cfg.miningContract := by simp [hto]
  have h5 : ¬ b.difficulty ≤ 0 := not_le.mpr hdiff
  have h6 : ¬ b.difficulty < CrossMiningMinDifficulty cfg b.chain :=
    not_lt.mpr hmin
  have hfm : CrossMiningForkTimeMilli cfg b.chain = cfg.heliumTime * 1000 := by
    unfold CrossMiningForkTimeMilli CrossMiningForkTime
    rw [if_pos hchain]
    have hne : cfg.heliumTime ≠ MaxUint64 := by unfold MaxUint64; omega
    rw [if_pos hne]
    unfold mul64
    apply Nat.mod_eq_of_lt
    omega
  have hadd : add64 (mul64 t 1000) allowedFutureBlockTimeMilliSeconds
      = t * 1000 + 12000 := by
    unfold add64 mul64 allowedFutureBlockTimeMilliSeconds
    have h1 : t * 1000 < 2 ^ 64 := by omega
    have h2 : t * 1000 + 12000 < 2 ^ 64 := by omega
    rw [Nat.mod_eq_of_lt h1, Nat.mod_eq_of_lt h2]
  have hlow : b.timestamp < cfg.heliumTime * 1000 →
      VerifyCrossMiningTxSeal cfg tx t = some SealError.invalidMiningBlockTime := by
    intro hA
    rw [seal_firstFailure]
    unfold sealCheckList
    simp only [hb]
    cases hm : getMinerAddress b.coinbasePayload <;>
      simp [firstFailure, hvalid, hsup, h3flag, h4, h5, h6, hfm, hadd, hA, hm]
  have hmid : ¬ b.timestamp < cfg.heliumTime * 1000 →
      t * 1000 + 12000 < b.timestamp →
      VerifyCrossMiningTxSeal cfg tx t = some SealError.invalidFutureBlock := by
    intro hA hB
    rw [seal_firstFailure]
    unfold sealCheckList
    simp only [hb]
    cases hm : getMinerAddress b.coinbasePayload <;>
      simp [firstFailure, hvalid, hsup, h3flag, h4, h5, h6, hfm, hadd, hA, hB, hm]
  have hrest : ¬ b.timestamp < cfg.heliumTime * 1000 →
      ¬ t * 1000 + 12000 < b.timestamp →
      VerifyCrossMiningTxSeal cfg tx t ≠ some SealError.invalidMiningBlockTime ∧
      VerifyCrossMiningTxSeal cfg tx t ≠ some SealError.invalidFutureBlock := by
    intro hA hB
    rw [seal_firstFailure]
    unfold sealCheckList
    simp only [hb]
    cases hm : getMinerAddress b.coinbasePayload with
    | error e =>
      constructor <;>
        (simp [firstFailure, hvalid, hsup, h3flag, h4, h5, h6, hfm, hadd,
          hA, hB, hm]
         split_ifs <;> simp)
    | ok m =>
      constructor <;>
        (simp [firstFailure, hvalid, hsup, h3flag, h4, h5, h6, hfm, hadd,
          hA, hB, hm]
         split_ifs <;> simp)
  refine ⟨⟨?_, hlow⟩, ⟨?_, fun hc => hmid (not_lt.mpr hc.1) hc.2⟩, ?_, ?_⟩
  · intro hv
    by_cases hA : b.timestamp < cfg.heliumTime * 1000
    · exact hA
    · by_cases hB : t * 1000 + 12000 < b.timestamp
      · rw [hmid hA hB] at hv
        simp at hv
      · exact absurd hv ((hrest hA hB).1)
  · intro hv
    by_cases hA : b.timestamp < cfg.heliumTime * 1000
    · rw [hlow hA] at hv
      simp at hv
    · by_cases hB : t * 1000 + 12000 < b.timestamp
      · exact ⟨not_lt.mp hA, hB⟩
      · exact absurd hv ((hrest hA hB).2)
  · intro hts
    have hA : ¬ b.timestamp < cfg.heliumTime * 1000 := by
      rw [hts]
      exact Nat.not_lt.mpr
        (le_trans (Nat.mul_le_mul_right 1000 hhel) (Nat.le_add_right _ _))
    have hB : ¬ t * 1000 + 12000 < b.timestamp := by
      rw [hts]
      exact lt_irrefl _
    exact hrest hA hB
  · intro hts
    have hA : ¬ b.timestamp < cfg.heliumTime * 1000 := by
      rw [hts]
      exact Nat.not_lt.mpr
        (le_trans (Nat.mul_le_mul_right 1000 hhel) (Nat.le_add_right _ _))
    have hB : t * 1000 + 12000 < b.timestamp := by
      rw [hts]
      exact Nat.add_lt_add_left (by decide) (t * 1000)
    exact hmid hA hB

/-- C3 witness: at the concrete pre-fork timestamp 1704067199999 the window
theorem applies and its block-time iff holds. -/
theorem c3_timestamp_window_witness :
    sampleTxEarly.auxPoW = some sampleBlockEarly ∧
      (VerifyCrossMiningTxSeal sampleCfg sampleTxEarly 1704067300 =
          some SealError.invalidMiningBlockTime ↔
        sampleBlockEarly.timestamp < sampleCfg.heliumTime * 1000) :=
  ⟨rfl, (c3_timestamp_window sampleCfg sampleTxEarly 1704067300 sampleBlockEarly
    rfl rfl (by decide) (by decide) rfl (by decide) (by decide) (by decide)
    (by decide)).1⟩

/-- An error whose every occurrence in the list carries a false flag is
never the first failure. -/
theorem firstFailure_ne_of_flag_false (l : List (Bool × SealError))
    (e : SealError) (h : ∀ p ∈ l, p.2 = e → p.1 = false) :
    firstFailure l ≠ some e := by
  induction l with
  | nil => simp [firstFailure]
  | cons p rest ih =>
    obtain ⟨f, err⟩ := p
    unfold firstFailure
    by_cases hf : f = true
    · rw [if_pos hf]
      intro hc
      have herr : err = e := by simpa using hc
      have hff : f = false := h (f, err) (List.mem_cons_self _ _) herr
      rw [hf] at hff
      exact Bool.noConfusion hff
    · rw [if_neg hf]
      exact ih fun q hq hqe => h q (List.mem_cons_of_mem _ hq) hqe

/-- C4: when a non-nil, structurally valid, supported (hence Kaspa) block is
verified with Lithium active, the pow-hash-bound error is returned exactly
when the block's PoW hash integer is not strictly below 2^256 / 512; with
Lithium inactive, or for a non-Kaspa chain, that error is never returned. -/
theorem c4_lithium_pow_hash_bound (cfg : ChainConfig) (tx : CrossTx) (t : Nat)
    (b : CrossBlock) (hb : tx.auxPoW = some b) :
    (b.isValidBlock = true → isSupportedCrossMining cfg b t = true →
      cfg.isLithium t = true →
      (VerifyCrossMiningTxSeal cfg tx t = some SealError.invalidBlockPoWHash ↔
        2 ^ 256 / 512 ≤ b.blockHashInt))
    ∧ (cfg.isLithium t = false →
        VerifyCrossMiningTxSeal cfg tx t ≠ some SealError.invalidBlockPoWHash)
    ∧ (b.chain ≠ KaspaChain →
        VerifyCrossMiningTxSeal cfg tx t ≠ some SealError.invalidBlockPoWHash) := by
  refine ⟨?_, ?_, ?_⟩
  · intro hvalid hsup hl
    have hsup' := hsup
    unfold isSupportedCrossMining at hsup'
    simp only [Bool.and_eq_true, decide_eq_true_eq] at hsup'
    have hchain : b.chain = KaspaChain := hsup'.1
    by_cases hcase : b.blockHashInt < maxPoWInLithiumFork
    · have hne : VerifyCrossMiningTxSeal cfg tx t ≠
          some SealError.invalidBlockPoWHash := by
        rw [seal_firstFailure]
        unfold sealCheckList
        simp only [hb]
        cases hm : getMinerAddress b.coinbasePayload <;>
          (apply firstFailure_ne_of_flag_false
           intro p hp hpe
           simp only [List.mem_append, List.mem_cons, List.mem_singleton,
             List.not_mem_nil, or_false] at hp
           rcases hp with (rfl|rfl|rfl|rfl|rfl|rfl|rfl|rfl|rfl|rfl|rfl)|rfl <;>
             simp_all [isValidKaspaBlockHash])
      exact iff_of_false hne (not_le.mpr hcase)
    · have hver : VerifyCrossMiningTxSeal cfg tx t =
          some SealError.invalidBlockPoWHash := by
        rw [seal_firstFailure]
        unfold sealCheckList
        simp only [hb]
        cases hm : getMinerAddress b.coinbasePayload <;>
          simp [firstFailure, hvalid, hsup, hl, hchain, isValidKaspaBlockHash,
            hcase, hm]
      exact iff_of_true hver (not_lt.mp hcase)
  · intro hl
    rw [seal_firstFailure]
    unfold sealCheckList
    simp only [hb]
    cases hm : getMinerAddress b.coinbasePayload <;>
      (apply firstFailure_ne_of_flag_false
       intro p hp hpe
       simp only [List.mem_append, List.mem_cons, List.mem_singleton,
           List.not_mem_nil, or_false] at hp
       rcases hp with (rfl|rfl|rfl|rfl|rfl|rfl|rfl|rfl|rfl|rfl|rfl)|rfl <;>
         simp_all)
  · intro hchainne
    rw [seal_firstFailure]
    unfold sealCheckList
    simp only [hb]
    cases hm : getMinerAddress b.coinbasePayload <;>
      (apply firstFailure_ne_of_flag_false
       intro p hp hpe
       simp only [List.mem_append, List.mem_cons, List.mem_singleton,
             List.not_mem_nil, or_false] at hp
       rcases hp with (rfl|rfl|rfl|rfl|rfl|rfl|rfl|rfl|rfl|rfl|rfl)|rfl <;>
         simp_all)

/-- C4 witness: with Lithium active and a concrete hash of 2^255 the bound
theorem applies and its iff holds. -/
theorem c4_lithium_pow_hash_bound_witness :
    sampleTxBigHash.auxPoW = some sampleBlockBigHash ∧
      (VerifyCrossMiningTxSeal sampleCfgLithium sampleTxBigHash 1704067300 =
          some SealError.invalidBlockPoWHash ↔
        2 ^ 256 / 512 ≤ sampleBlockBigHash.blockHashInt) :=
  ⟨rfl, (c4_lithium_pow_hash_bound sampleCfgLithium sampleTxBigHash 1704067300
      sampleBlockBigHash rfl).1 rfl (by decide) (by decide)⟩

/-- beBytes always produces exactly the requested number of bytes. -/
theorem beBytes_length (k n : Nat) : (beBytes k n).length = k := by
  induction k generalizing n with
  | zero => simp [beBytes]
  | succ k ih => simp [beBytes, ih]

/-- A check list with no failing flag yields no error. -/
theorem firstFailure_eq_none (l : List (Bool × SealError))
    (h : firstFailure l = none) : ∀ p ∈ l, p.1 = false := by
  induction l with
  | nil => simp
  | cons p rest ih =>
    obtain ⟨fl, err⟩ := p
    unfold firstFailure at h
    by_cases hf : fl = true
    · rw [if_pos hf] at h
      exact absurd h (by simp)
    · rw [if_neg hf] at h
      intro q hq
      rcases List.mem_cons.mp hq with rfl | hq2
      · simpa using hf
      · exact ih h q hq2

/-- C5: the synthesized calldata is the 4-byte selector 0x97b8f2fc followed
by three left-zero-padded 32-byte big-endian fields (miner address, chain
tag as uint16, millisecond timestamp as uint256), 100 bytes in all; an
accepted transaction's data equals the calldata built from the miner
extracted from the coinbase payload; and the verifier never reads tx.from,
so the outcome is independent of it. -/
theorem c5_calldata_encoding (chain : Nat) (miner : List Nat) (ts : Nat)
    (cfg : ChainConfig) (tx : CrossTx) (t : Nat) (b : CrossBlock)
    (f : List Nat) (h20 : miner.length = 20) :
    buildCrossMiningTxInput chain miner ts = crossMiningCalldataSpec chain miner ts
    ∧ (buildCrossMiningTxInput chain miner ts).length = 100
    ∧ (∀ m, tx.auxPoW = some b →
        getMinerAddress b.coinbasePayload = Except.ok m →
        VerifyCrossMiningTxSeal cfg tx t = none →
        tx.data = buildCrossMiningTxInput b.chain m b.timestamp)
    ∧ VerifyCrossMiningTxSeal cfg { tx with fromAddr := f } t
        = VerifyCrossMiningTxSeal cfg tx t := by
  refine ⟨?_, ?_, ?_, ?_⟩
  · unfold buildCrossMiningTxInput crossMiningCalldataSpec pad32 leftPadBytes
      CanxiumCrossMiningTxDataMethod
    simp [h20, beBytes_length]
  · simp [buildCrossMiningTxInput, leftPadBytes, CanxiumCrossMiningTxDataMethod,
      h20, beBytes_length]
  · intro m hbx hmx hnone
    rw [seal_firstFailure] at hnone
    have hall := firstFailure_eq_none _ hnone
    have hmem : (decide (tx.data ≠ buildCrossMiningTxInput b.chain m b.timestamp),
        SealError.invalidMiningInput) ∈ sealCheckList cfg tx t := by
      unfold sealCheckList
      simp only [hbx, hmx]
      simp
    have hflag := hall _ hmem
    simpa using hflag
  · cases tx
    rfl

/-- C5 witness: for the concrete accepted sample, the data field equals the
calldata built from the payload-extracted miner. -/
theorem c5_calldata_encoding_witness :
    sampleMiner.length = 20 ∧
      sampleTx.data = buildCrossMiningTxInput sampleBlock.chain sampleMiner
        sampleBlock.timestamp :=
  ⟨by decide, (c5_calldata_encoding KaspaChain sampleMiner 1704067300000
      sampleCfg sampleTx 1704067300 sampleBlock (List.replicate 20 2)
      (by decide)).2.2.1 sampleMiner rfl rfl (by decide)⟩

end Canxium
